import Mathlib

/-!
Shallow embedding of `svg_text.py`, a command-line extractor of the text
content of SVG `text` elements.  The XML collaborator
(`xml.etree.ElementTree`) is modelled by the rose tree `Element`: each
element carries a qualified tag, an attribute association list, the
optional text fragment that stands immediately after its start tag, and
its ordered children.  The Python builtins that the script calls
(`str.split()` with no argument, `' '.join`, `''.join`, `repr`,
`dict[...]` lookup) are modelled by executable Lean functions that
follow the CPython semantics the script relies on.
-/

/-- Document tree node, the shape `xml.etree.ElementTree` hands to the
script: qualified tag (namespace in braces, as ElementTree renders it),
attribute map, optional leading text fragment, ordered children. -/
inductive Element where
  | mk (tag : String) (attrib : List (String × String))
       (text : Option String) (children : List Element)

/-- Qualified tag of an element. -/
def Element.tag : Element → String
  | .mk t _ _ _ => t

/-- Attribute association list of an element (keys unique). -/
def Element.attrib : Element → List (String × String)
  | .mk _ a _ _ => a

/-- Text fragment standing before the element's first child
(`element.text` in ElementTree), `none` when absent. -/
def Element.text : Element → Option String
  | .mk _ _ x _ => x

/-- Ordered children of an element. -/
def Element.children : Element → List Element
  | .mk _ _ _ c => c

mutual

/-- Model of `element.iter()` with no tag argument: the element itself
followed by all descendants, depth-first document order. -/
def Element.iterAll : Element → List Element
  | .mk t a x cs => .mk t a x cs :: iterAllList cs

/-- Document-order traversal of a forest of sibling subtrees. -/
def iterAllList : List Element → List Element
  | [] => []
  | c :: cs => Element.iterAll c ++ iterAllList cs

end

/-- Qualified name that `main` passes to `tree.iter`:
`\x7bhttp://www.w3.org/2000/svg\x7dtext`. -/
def svgTextTag : String := "\x7bhttp://www.w3.org/2000/svg\x7dtext"

/-- Model of `tree.iter(svgTextTag)`: the subtree elements whose tag is
the SVG-namespaced `text` tag, in document order. -/
def matchedElements (root : Element) : List Element :=
  (Element.iterAll root).filter (fun e => e.tag == svgTextTag)

/-- Truthiness filter `if child.text` of the comprehension in
`get_childrens_text`: keeps a text fragment only when it is present and
non-empty. -/
def truthyText (e : Element) : Option String :=
  match e.text with
  | none => none
  | some t => if t = "" then none else some t

/-- Model of `''.join(strings)`. -/
def joinStrings : List String → String
  | [] => ""
  | s :: ss => s ++ joinStrings ss

/-- Embedding of `get_childrens_text`:
`''.join([child.text for child in element.iter() if child.text])`. -/
def get_childrens_text (element : Element) : String :=
  joinStrings ((Element.iterAll element).filterMap truthyText)

/-- Document-order list of the non-empty text fragments of an element's
subtree; the fragments whose concatenation the spec describes. -/
def textFragments (e : Element) : List String :=
  (Element.iterAll e).filterMap truthyText

mutual

/-- Aggregation following the spec's words for claim C4: walk the
element's own subtree in document order and concatenate every non-empty
leading text fragment, no separator inserted. -/
def specAggregate : Element → String
  | .mk _ _ x cs =>
    (match x with
     | none => ""
     | some t => if t = "" then "" else t) ++ specAggregateList cs

/-- Spec-side aggregation over a forest of sibling subtrees. -/
def specAggregateList : List Element → String
  | [] => ""
  | c :: cs => specAggregate c ++ specAggregateList cs

end

/-- Code points CPython's `str.split()` (and `str.isspace`) treats as
whitespace: ASCII 0x09-0x0d, 0x1c-0x1f, space, plus the Unicode
space/line/paragraph separators. -/
def pyWsVals : List Nat :=
  [9, 10, 11, 12, 13, 28, 29, 30, 31, 32, 0x85, 0xa0, 0x1680,
   0x2000, 0x2001, 0x2002, 0x2003, 0x2004, 0x2005, 0x2006, 0x2007,
   0x2008, 0x2009, 0x200a, 0x2028, 0x2029, 0x202f, 0x205f, 0x3000]

/-- Whitespace predicate of CPython's `str.split()`. -/
def pyIsSpace (c : Char) : Bool := pyWsVals.contains c.toNat

/-- Negation of `pyIsSpace`, the token-run predicate. -/
def pyNotSpace (c : Char) : Bool := ! pyIsSpace c

/-- Whitespace set named by the spec sentence behind claim C5: space,
tab, newline, carriage return, form feed only. -/
def specFiveIsSpace (c : Char) : Bool :=
  [32, 9, 10, 13, 12].contains c.toNat

/-- Loop of CPython `str.split()` with no argument: scan the
characters, accumulating the current token in reverse (`none` while
inside a whitespace run); a whitespace character or the end of the
string closes the pending token. -/
def pySplitAux : Option (List Char) → List Char → List (List Char)
  | none, [] => []
  | some tok, [] => [tok.reverse]
  | none, c :: cs =>
    if pyIsSpace c then pySplitAux none cs else pySplitAux (some [c]) cs
  | some tok, c :: cs =>
    if pyIsSpace c then tok.reverse :: pySplitAux none cs
    else pySplitAux (some (c :: tok)) cs

/-- Model of CPython `str.split()` with no argument, on the character
list: the maximal non-whitespace runs, in order. -/
def pySplit (l : List Char) : List (List Char) :=
  pySplitAux none l

/-- Splitter in the spec's words: cut the list at every character
satisfying `p`, keeping empty pieces (they are filtered afterwards). -/
def splitOnPred (p : Char → Bool) : List Char → List (List Char)
  | [] => [[]]
  | c :: cs =>
    if p c then [] :: splitOnPred p cs
    else
      match splitOnPred p cs with
      | [] => [[c]]
      | t :: ts => (c :: t) :: ts

/-- Model of `sep.join(tokens)` for a list of strings. -/
def joinWith (sep : String) : List String → String
  | [] => ""
  | [s] => s
  | s :: t :: ss => s ++ sep ++ joinWith sep (t :: ss)

/-- Model of `text.split()` at the string level. -/
def pyStrSplit (s : String) : List String :=
  (pySplit s.data).map (fun t => String.mk t)

/-- Embedding of the whitespace collapse `' '.join(text.split())`. -/
def collapseWs (s : String) : String :=
  joinWith " " (pyStrSplit s)

/-- Collapse written from the spec's words, generic in the whitespace
predicate: split on runs of whitespace, drop empty tokens, rejoin the
rest with single spaces. -/
def collapseOn (p : Char → Bool) (s : String) : String :=
  joinWith " "
    (((splitOnPred p s.data).filter (fun t => ! t.isEmpty)).map
      (fun t => String.mk t))

/-- Single-quote character, written by code point to keep literals
unambiguous. -/
def squote : Char := Char.ofNat 39

/-- Double-quote character. -/
def dquote : Char := Char.ofNat 34

/-- Lower-case hexadecimal digit, as CPython's `\xNN` escapes use. -/
def hexDigitChar (n : Nat) : Char :=
  if n < 10 then Char.ofNat (48 + n) else Char.ofNat (87 + n)

/-- Fixed-width lower-case hexadecimal rendering of `n`, most
significant digit first, as CPython's `\xNN`, `\uNNNN` and
`\UNNNNNNNN` escapes pad it. -/
def hexChars : Nat → Nat → List Char
  | 0, _ => []
  | w + 1, n => hexChars w (n / 16) ++ [hexDigitChar (n % 16)]

/-- Code-point ranges `str.isprintable` (`Py_UNICODE_ISPRINTABLE`)
rejects, by Unicode 15.0 general category: the controls Cc, the
surrogates Cs, the private-use points Co, the separators Zs (except
ASCII space, which CPython keeps printable), Zl and Zp, and the format
characters Cf.  Unassigned points (Cn) are also non-printable for
CPython, according to the Unicode database its build bundles; that open
class is not enumerated here, so this model keeps Cn points as
printable. -/
def nonPrintableRanges : List (Nat × Nat) :=
  [(0x00, 0x1F), (0x7F, 0x9F),
   (0xA0, 0xA0), (0x1680, 0x1680), (0x2000, 0x200A),
   (0x202F, 0x202F), (0x205F, 0x205F), (0x3000, 0x3000),
   (0x2028, 0x2029),
   (0xAD, 0xAD), (0x600, 0x605), (0x61C, 0x61C), (0x6DD, 0x6DD),
   (0x70F, 0x70F), (0x890, 0x891), (0x8E2, 0x8E2), (0x180E, 0x180E),
   (0x200B, 0x200F), (0x202A, 0x202E), (0x2060, 0x2064),
   (0x2066, 0x206F), (0xFEFF, 0xFEFF), (0xFFF9, 0xFFFB),
   (0x110BD, 0x110BD), (0x110CD, 0x110CD), (0x13430, 0x1343F),
   (0x1BCA0, 0x1BCA3), (0x1D173, 0x1D17A),
   (0xE0001, 0xE0001), (0xE0020, 0xE007F),
   (0xD800, 0xDFFF), (0xE000, 0xF8FF),
   (0xF0000, 0xFFFFD), (0x100000, 0x10FFFD)]

/-- Printability predicate of CPython `repr` (see
`nonPrintableRanges` for its extent and the unassigned-point caveat). -/
def pyPrintable (c : Char) : Bool :=
  ! nonPrintableRanges.any (fun r => r.1 ≤ c.toNat && c.toNat ≤ r.2)

/-- Escape of one character inside a CPython `repr` literal quoted by
`q`, in CPython's case order: backslash and the quote are
backslash-escaped; tab, newline and carriage return use their mnemonic
escapes; the remaining C0 controls and DEL become `\xNN`; printable
characters print as themselves; every other character becomes `\xNN`,
`\uNNNN` or `\UNNNNNNNN` by code-point size. -/
def escapeChar (q : Char) (c : Char) : List Char :=
  if c = '\\' then ['\\', '\\']
  else if c = q then ['\\', q]
  else if c = '\t' then ['\\', 't']
  else if c = '\n' then ['\\', 'n']
  else if c = '\r' then ['\\', 'r']
  else if c.toNat < 32 || c.toNat = 127 then '\\' :: 'x' :: hexChars 2 c.toNat
  else if pyPrintable c then [c]
  else if c.toNat ≤ 0xff then '\\' :: 'x' :: hexChars 2 c.toNat
  else if c.toNat ≤ 0xffff then '\\' :: 'u' :: hexChars 4 c.toNat
  else '\\' :: 'U' :: hexChars 8 c.toNat

/-- Quote CPython `repr` chooses for a string: single quote, unless the
string holds a single quote and no double quote. -/
def reprQuote (s : List Char) : Char :=
  if s.contains squote && ! s.contains dquote then dquote else squote

/-- Model of CPython `repr` on a string: chosen quote, escaped body,
closing quote.  Exact up to the unassigned-code-point caveat recorded
at `nonPrintableRanges`. -/
def pyRepr (s : String) : String :=
  String.mk (reprQuote s.data ::
    (s.data.flatMap (escapeChar (reprQuote s.data)) ++ [reprQuote s.data]))

/-- Control characters in the sense of claim C6: the C0 range, DEL and
the C1 range. -/
def controlChar (c : Char) : Bool :=
  c.toNat < 32 || (127 ≤ c.toNat && c.toNat ≤ 159)

/-- Program name `os.path.basename(__file__)` of the script. -/
def progname : String := "svg_text.py"

/-- Attribute key the id lookup `element.attrib["id"]` uses. -/
def idAttr : String := "id"

/-- Separator `': '` of both the id rendering and the diagnostic line. -/
def colonSep : String := ": "

/-- Uncaught Python exceptions the per-element loop can raise:
`xml.etree.ElementTree.ParseError` from `ET.parse`, `KeyError` from the
id lookup. -/
inductive Fault where
  | parseError (filename : String)
  | keyError (key : String)
deriving DecidableEq

/-- Whitespace collapse applied when `--whitespace` was given. -/
def applyWs (ws : Bool) (s : String) : String :=
  if ws then collapseWs s else s

/-- Body of the per-element loop of `main`: id lookup (a `KeyError`
fault when `--id` is on and the attribute is missing), aggregation,
optional collapse, rendering of the one output line. -/
def processElement (useId ws : Bool) (e : Element) : Except Fault String :=
  if useId then
    match e.attrib.lookup idAttr with
    | none => Except.error (Fault.keyError idAttr)
    | some v =>
      Except.ok (v ++ colonSep ++ pyRepr (applyWs ws (get_childrens_text e)))
  else
    Except.ok (pyRepr (applyWs ws (get_childrens_text e)))

/-- Per-element loop over the matched elements of one document: lines
printed so far, and the fault that stopped the loop, if any. -/
def processElems (useId ws : Bool) : List Element → List String × Option Fault
  | [] => ([], none)
  | e :: es =>
    match processElement useId ws e with
    | .error f => ([], some f)
    | .ok line =>
      match processElems useId ws es with
      | (ls, f) => (line :: ls, f)

/-- One command-line input as the loop of `main` sees it: a filename
that fails to open (with the `OSError` fields used by the diagnostic),
one whose byte stream is not well-formed XML, or one parsed into a
document tree. -/
inductive Input where
  | openFail (filename reason : String)
  | parseFail (filename : String)
  | doc (filename : String) (root : Element)

/-- Observable outcome of the loop of `main`: stdout lines, stderr
lines, the `rtn` counter, and the uncaught fault that aborted the run,
if any. -/
structure RunState where
  out : List String
  errs : List String
  rtn : Nat
  fault : Option Fault
deriving DecidableEq

/-- Embedding of the loop of `main`: open failures print one diagnostic
and bump `rtn`, a parse failure raises an uncaught fault that ends the
run, a parsed document contributes one line per matched element until a
fault, and processing then moves to the next input. -/
def runMain (useId ws : Bool) : List Input → RunState
  | [] => ⟨[], [], 0, none⟩
  | .openFail f r :: is =>
    let s := runMain useId ws is
    ⟨s.out, (progname ++ colonSep ++ f ++ colonSep ++ r) :: s.errs,
     s.rtn + 1, s.fault⟩
  | .parseFail f :: _ => ⟨[], [], 0, some (Fault.parseError f)⟩
  | .doc _ root :: is =>
    match processElems useId ws (matchedElements root) with
    | (lines, some flt) => ⟨lines, [], 0, some flt⟩
    | (lines, none) =>
      let s := runMain useId ws is
      ⟨lines ++ s.out, s.errs, s.rtn, s.fault⟩

/-- Number of inputs that fail to open. -/
def openFailCount : List Input → Nat
  | [] => 0
  | .openFail _ _ :: is => openFailCount is + 1
  | _ :: is => openFailCount is

/-- Total number of Text Element Matches over the parsed inputs. -/
def totalMatches : List Input → Nat
  | [] => 0
  | .doc _ root :: is => (matchedElements root).length + totalMatches is
  | _ :: is => totalMatches is

/-- Exit status of a run that is not interrupted: `sys.exit(rtn)`
truncated modulo 256 by the POSIX wait status, or `none` when an
uncaught fault aborted the interpreter instead. -/
def exitStatus (useId ws : Bool) (inputs : List Input) : Option Nat :=
  match (runMain useId ws inputs).fault with
  | some _ => none
  | none => some ((runMain useId ws inputs).rtn % 256)

/-- How the toplevel `try` block ends: normally, by `KeyboardInterrupt`,
or by `BrokenPipeError`. -/
inductive TermMode where
  | normal
  | keyboardInterrupt
  | brokenPipe
deriving DecidableEq

/-- Embedding of the `__main__` block: `sys.exit(main())` on the normal
path, and `sys.exit(255)` after either caught interruption. -/
def finalExit (m : TermMode) (useId ws : Bool) (inputs : List Input) :
    Option Nat :=
  match m with
  | .normal => exitStatus useId ws inputs
  | .keyboardInterrupt => some 255
  | .brokenPipe => some 255

/-- Stream the resolver yields: the process's standard input, or an
opened file handle. -/
inductive InStream where
  | stdin
  | fileHandle (h : Nat)
deriving DecidableEq

/-- Observable trace of one use of the resolver: the body's result, the
filesystem open attempts made, and the handles closed. -/
structure ResolveTrace (α : Type) where
  result : α
  openedPaths : List String
  closedHandles : List Nat

/-- Embedding of the generator `open_ro_with_error` around one caller
body.  `osOpen` models `open(filename, 'rb')`.  The token `-` yields
standard input with no filesystem access; an `IOError` is yielded as the
error component; on a successful open the `finally` clause closes the
handle on every exit path, so the closed-handle trace does not depend on
the body's result (which may be a propagating fault). -/
def open_ro_with_error {α : Type} (osOpen : String → Except String Nat)
    (filename : String) (body : Option InStream → Option String → α) :
    ResolveTrace α :=
  if filename = "-" then
    { result := body (some InStream.stdin) none
      openedPaths := []
      closedHandles := [] }
  else
    match osOpen filename with
    | .error e =>
      { result := body none (some e)
        openedPaths := [filename]
        closedHandles := [] }
    | .ok h =>
      { result := body (some (InStream.fileHandle h)) none
        openedPaths := [filename]
        closedHandles := [h] }

/-! ### Generic lemmas about the embedding -/

/-- Concatenation distributes over `joinStrings`. -/
theorem joinStrings_append (a b : List String) :
    joinStrings (a ++ b) = joinStrings a ++ joinStrings b := by
  induction a with
  | nil => simp [joinStrings]
  | cons s ss ih => simp [joinStrings, ih, String.append_assoc]

mutual

/-- Joining the truthy fragments of `element.iter()` computes the
spec-side subtree aggregation. -/
theorem aggAux (e : Element) :
    joinStrings ((Element.iterAll e).filterMap truthyText) = specAggregate e := by
  cases e with
  | mk t a x cs =>
    show joinStrings
      ((Element.mk t a x cs :: iterAllList cs).filterMap truthyText) = _
    rw [List.filterMap_cons]
    have hrest := aggListAux cs
    cases x with
    | none => simp [truthyText, Element.text, specAggregate, hrest]
    | some s =>
      by_cases hs : s = ""
      · subst hs
        simp [truthyText, Element.text, specAggregate, hrest]
      · simp [truthyText, Element.text, specAggregate, hs, hrest, joinStrings]

/-- Forest version of `aggAux`. -/
theorem aggListAux (l : List Element) :
    joinStrings ((iterAllList l).filterMap truthyText) = specAggregateList l := by
  cases l with
  | nil => rfl
  | cons c cs =>
    show joinStrings
      ((Element.iterAll c ++ iterAllList cs).filterMap truthyText) = _
    rw [List.filterMap_append, joinStrings_append, aggAux c, aggListAux cs]
    rfl

end

/-- Parent with three children contributing fragments `a`, `b`, `c` in
document order. -/
def abcParent : Element :=
  Element.mk "g" [] none
    [Element.mk "tspan1" [] (some "a") [],
     Element.mk "tspan2" [] (some "b") [],
     Element.mk "tspan3" [] (some "c") []]

/-- C4: for every element, `get_childrens_text` returns the
concatenation, in document order over the element and its descendants,
of each element's non-empty leading text fragment, with no separator;
descendants contributing `a`, `b`, `c` aggregate to `abc`. -/
theorem claim_C4 :
    (∀ e : Element, get_childrens_text e = specAggregate e) ∧
    get_childrens_text abcParent = "abc" :=
  ⟨fun e => aggAux e, by decide⟩

/-- C7: an input that fails to open is recovered locally: exactly one
diagnostic line `progname: filename: reason` is prepended to standard
error, standard output is untouched, the `rtn` counter is one more than
for the remaining inputs, and processing continues with them. -/
theorem claim_C7 :
    ∀ (useId ws : Bool) (f r : String) (rest : List Input),
      runMain useId ws (Input.openFail f r :: rest) =
        ⟨(runMain useId ws rest).out,
         (progname ++ colonSep ++ f ++ colonSep ++ r) ::
           (runMain useId ws rest).errs,
         (runMain useId ws rest).rtn + 1,
         (runMain useId ws rest).fault⟩ :=
  fun _ _ _ _ _ => rfl

/-- Matched text element carrying no `id` attribute. -/
def noIdText : Element := Element.mk svgTextTag [] (some "x") []

/-- C8: with ids requested, a matched element without an `id` attribute
makes the lookup raise an uncaught `KeyError` fault, which aborts the
run rather than yielding an empty id or a recovered error. -/
theorem claim_C8 :
    (∀ (ws : Bool) (e : Element), e.attrib.lookup idAttr = none →
      processElement true ws e = Except.error (Fault.keyError idAttr)) ∧
    (runMain true false [Input.doc "x" noIdText]).fault =
      some (Fault.keyError idAttr) := by
  constructor
  · intro ws e h
    simp [processElement, h]
  · decide

/-- Witness for C8 at the concrete id-less element. -/
theorem claim_C8_wit :
    processElement true false noIdText = Except.error (Fault.keyError idAttr) :=
  claim_C8.1 false noIdText rfl

/-- C9: the resolver yields standard input for the token `-` with no
filesystem access and never closes it; a successfully opened file
handle is closed exactly once whatever the body's outcome, faults
included. -/
theorem claim_C9 :
    ∀ (osOpen : String → Except String Nat) (α : Type)
      (body : Option InStream → Option String → α),
      (open_ro_with_error osOpen "-" body).result =
          body (some InStream.stdin) none ∧
      (open_ro_with_error osOpen "-" body).openedPaths = [] ∧
      (open_ro_with_error osOpen "-" body).closedHandles = [] ∧
      (∀ (f : String) (h : Nat), f ≠ "-" → osOpen f = Except.ok h →
        (open_ro_with_error osOpen f body).closedHandles = [h]) := by
  intro osOpen α body
  refine ⟨rfl, rfl, rfl, ?_⟩
  intro f h hf hok
  simp [open_ro_with_error, hf, hok]

/-- Witness for C9 at a concrete open table and body. -/
theorem claim_C9_wit :
    (open_ro_with_error (fun _ => Except.ok 7) "x"
      (fun s e => (s, e))).closedHandles = [7] :=
  (claim_C9 (fun _ => Except.ok 7) _ (fun s e => (s, e))).2.2.2 "x" 7
    (by decide) rfl

/-- Spec-side splitter never returns an empty list of pieces. -/
theorem splitOnPred_ne_nil (p : Char → Bool) :
    ∀ l : List Char, splitOnPred p l ≠ [] := by
  intro l
  cases l with
  | nil => simp [splitOnPred]
  | cons c cs =>
    by_cases hc : p c
    · simp [splitOnPred, hc]
    · simp only [splitOnPred, hc, if_false]
      cases splitOnPred p cs <;> simp

/-- Split-loop invariant: on an empty accumulator the loop computes the
non-empty pieces of the spec-side splitter, and on a pending token it
prepends the token to the first piece. -/
theorem pySplitAux_spec (l : List Char) :
    pySplitAux none l =
      (splitOnPred pyIsSpace l).filter (fun t => ! t.isEmpty) ∧
    ∀ tok : List Char,
      pySplitAux (some tok) l =
        (tok.reverse ++ (splitOnPred pyIsSpace l).headI) ::
          ((splitOnPred pyIsSpace l).tail.filter (fun t => ! t.isEmpty)) := by
  induction l with
  | nil =>
    refine ⟨rfl, fun tok => ?_⟩
    simp [pySplitAux, splitOnPred]
  | cons c cs ih =>
    obtain ⟨ihA, ihB⟩ := ih
    by_cases hc : pyIsSpace c
    · constructor
      · simp [pySplitAux, hc, ihA, splitOnPred]
      · intro tok
        simp [pySplitAux, hc, ihA, splitOnPred]
    · obtain ⟨t, ts, hts⟩ :=
        List.exists_cons_of_ne_nil (splitOnPred_ne_nil pyIsSpace cs)
      constructor
      · have h1 : pySplitAux none (c :: cs) = pySplitAux (some [c]) cs := by
          simp [pySplitAux, hc]
        rw [h1, ihB [c]]
        simp [splitOnPred, hc, hts]
      · intro tok
        have h1 : pySplitAux (some tok) (c :: cs) =
            pySplitAux (some (c :: tok)) cs := by
          simp [pySplitAux, hc]
        rw [h1, ihB (c :: tok)]
        simp [splitOnPred, hc, hts]

/-- The split loop computes the non-empty spec-side pieces. -/
theorem pySplit_eq (l : List Char) :
    pySplit l = (splitOnPred pyIsSpace l).filter (fun t => ! t.isEmpty) :=
  (pySplitAux_spec l).1

/-- On an all-whitespace input the split loop yields no token. -/
theorem pySplitAux_all_ws :
    ∀ l : List Char, l.all pyIsSpace = true → pySplitAux none l = [] := by
  intro l
  induction l with
  | nil => intro _; rfl
  | cons c cs ih =>
    intro h
    simp only [List.all_cons, Bool.and_eq_true] at h
    simp [pySplitAux, h.1, ih h.2]

/-- The code-side collapse equals the spec-style collapse taken over
CPython's whitespace set. -/
theorem collapseWs_eq (s : String) : collapseWs s = collapseOn pyIsSpace s := by
  unfold collapseWs collapseOn pyStrSplit
  rw [pySplit_eq]

/-- String whose middle character is a vertical tab (code point 11). -/
def vtabString : String := String.mk ['a', Char.ofNat 11, 'b']

/-- C5 counterexample: on `a`, vertical tab, `b` the code collapses the
vertical tab to a single space, while the collapse described by the
claim (whitespace being only space, tab, newline, carriage return, form
feed) leaves the payload unchanged. -/
theorem claim_C5_cex :
    collapseWs vtabString = String.mk ['a', Char.ofNat 32, 'b'] ∧
    collapseOn specFiveIsSpace vtabString = vtabString ∧
    String.mk ['a', Char.ofNat 32, 'b'] ≠ vtabString := by decide

/-- C5 amended: the collapse splits on runs of CPython whitespace
(vertical tab and the other Unicode whitespace characters included,
beside space, tab, newline, carriage return and form feed), rejoins the
non-empty tokens with single spaces discarding leading and trailing
whitespace, and maps empty or all-whitespace payloads to the empty
string. -/
theorem claim_C5 :
    ∀ s : String, collapseWs s = collapseOn pyIsSpace s ∧
      (s.data.all pyIsSpace = true → collapseWs s = "") := by
  intro s
  refine ⟨collapseWs_eq s, fun h => ?_⟩
  unfold collapseWs pyStrSplit pySplit
  rw [pySplitAux_all_ws s.data h]
  rfl

/-- Witness for C5 at a concrete all-whitespace payload. -/
theorem claim_C5_wit :
    collapseWs (String.mk [Char.ofNat 32, Char.ofNat 9]) = "" :=
  (claim_C5 (String.mk [Char.ofNat 32, Char.ofNat 9])).2 (by decide)

/-- Fault-free per-element loop prints one line per matched element. -/
theorem processElems_len (useId ws : Bool) :
    ∀ es : List Element, (processElems useId ws es).2 = none →
      (processElems useId ws es).1.length = es.length := by
  intro es
  induction es with
  | nil => intro _; rfl
  | cons e es ih =>
    intro h
    rcases hpe : processElement useId ws e with f | line
    · rw [processElems, hpe] at h
      simp at h
    · rcases hq : processElems useId ws es with ⟨ls, f⟩
      rw [processElems, hpe, hq] at h
      simp at h
      rw [processElems, hpe, hq]
      simp
      have := ih
      rw [hq] at this
      exact this h

/-- Fault-free runs count exactly the inputs that failed to open. -/
theorem runMain_rtn (useId ws : Bool) :
    ∀ inputs : List Input, (runMain useId ws inputs).fault = none →
      (runMain useId ws inputs).rtn = openFailCount inputs := by
  intro inputs
  induction inputs with
  | nil => intro _; rfl
  | cons i is ih =>
    intro h
    cases i with
    | openFail f r =>
      rw [runMain] at h ⊢
      simp [openFailCount]
      exact ih h
    | parseFail f => rw [runMain] at h; simp at h
    | doc f root =>
      rcases hq : processElems useId ws (matchedElements root) with ⟨ls, flt⟩
      rw [runMain, hq] at h ⊢
      cases flt with
      | some x => simp at h
      | none =>
        simp [openFailCount]
        exact ih h

/-- Fault-free runs print one stdout line per match, summed over the
parsed inputs. -/
theorem runMain_out_len (useId ws : Bool) :
    ∀ inputs : List Input, (runMain useId ws inputs).fault = none →
      (runMain useId ws inputs).out.length = totalMatches inputs := by
  intro inputs
  induction inputs with
  | nil => intro _; rfl
  | cons i is ih =>
    intro h
    cases i with
    | openFail f r =>
      rw [runMain] at h ⊢
      simp [totalMatches]
      exact ih h
    | parseFail f => rw [runMain] at h; simp at h
    | doc f root =>
      rcases hq : processElems useId ws (matchedElements root) with ⟨ls, flt⟩
      rw [runMain, hq] at h ⊢
      cases flt with
      | some x => simp at h
      | none =>
        simp [totalMatches]
        have hlen := processElems_len useId ws (matchedElements root)
        rw [hq] at hlen
        rw [hlen rfl, ih h]

/-- C1 amended: in every run free of uncaught faults, the number of
stdout lines equals the number of Text Element Matches over the parsed
inputs, and the `rtn` counter equals the number of inputs that failed
to open. -/
theorem claim_C1 :
    ∀ (useId ws : Bool) (inputs : List Input),
      (runMain useId ws inputs).fault = none →
      (runMain useId ws inputs).out.length = totalMatches inputs ∧
      (runMain useId ws inputs).rtn = openFailCount inputs :=
  fun u w is h => ⟨runMain_out_len u w is h, runMain_rtn u w is h⟩

/-- C1 counterexample: with ids requested, a successfully parsed input
holding one matched text element without an `id` attribute produces
zero output lines while contributing one match, because the id lookup
fault aborts the loop. -/
theorem claim_C1_cex :
    (runMain true false [Input.doc "f" noIdText]).out.length = 0 ∧
    totalMatches [Input.doc "f" noIdText] = 1 ∧
    (runMain true false [Input.doc "f" noIdText]).fault =
      some (Fault.keyError idAttr) := by decide

/-- Witness for C1 on a run with one open failure and one parsed
document. -/
theorem claim_C1_wit :
    (runMain false false
        [Input.openFail "a" "b", Input.doc "f" noIdText]).out.length =
      totalMatches [Input.openFail "a" "b", Input.doc "f" noIdText] ∧
    (runMain false false
        [Input.openFail "a" "b", Input.doc "f" noIdText]).rtn =
      openFailCount [Input.openFail "a" "b", Input.doc "f" noIdText] :=
  claim_C1 false false [Input.openFail "a" "b", Input.doc "f" noIdText]
    (by decide)

/-- C2 amended: a run that ends without interrupt, broken pipe or
uncaught fault exits with the open-failure count reduced modulo 256
(the POSIX wait-status truncation of `sys.exit`), and a run ended by a
keyboard interrupt or a broken pipe exits with status 255. -/
theorem claim_C2 :
    ∀ (useId ws : Bool) (inputs : List Input),
      ((runMain useId ws inputs).fault = none →
        finalExit TermMode.normal useId ws inputs =
          some (openFailCount inputs % 256)) ∧
      finalExit TermMode.keyboardInterrupt useId ws inputs = some 255 ∧
      finalExit TermMode.brokenPipe useId ws inputs = some 255 := by
  intro u w is
  refine ⟨fun h => ?_, rfl, rfl⟩
  simp [finalExit, exitStatus, h, runMain_rtn u w is h]

set_option maxRecDepth 9000 in
/-- C2 counterexample: 256 inputs that fail to open exit with status 0,
which is neither the failure count nor any cap of it at 255. -/
theorem claim_C2_cex :
    openFailCount (List.replicate 256 (Input.openFail "f" "e")) = 256 ∧
    finalExit TermMode.normal false false
      (List.replicate 256 (Input.openFail "f" "e")) = some 0 := by decide

/-- Witness for C2 on a one-failure run. -/
theorem claim_C2_wit :
    finalExit TermMode.normal false false [Input.openFail "a" "b"] =
      some (openFailCount [Input.openFail "a" "b"] % 256) :=
  (claim_C2 false false [Input.openFail "a" "b"]).1 (by decide)

/-- Appending inputs after a parse failure never changes the run. -/
theorem runMain_append_pf (useId ws : Bool) (f : String) (rest : List Input) :
    ∀ pre : List Input,
      runMain useId ws (pre ++ Input.parseFail f :: rest) =
        runMain useId ws (pre ++ [Input.parseFail f]) := by
  intro pre
  induction pre with
  | nil => rfl
  | cons i is ih =>
    cases i with
    | openFail a b =>
      rw [List.cons_append, List.cons_append, runMain, runMain, ih]
    | parseFail a => rfl
    | doc a root =>
      rw [List.cons_append, List.cons_append, runMain, runMain]
      rcases hq : processElems useId ws (matchedElements root) with ⟨ls, flt⟩
      cases flt with
      | some x => rfl
      | none => rw [ih]

/-- A parse failure reached by a fault-free run aborts it with the
uncaught parse fault. -/
theorem runMain_pf_fault (useId ws : Bool) (f : String) (rest : List Input) :
    ∀ pre : List Input, (runMain useId ws pre).fault = none →
      (runMain useId ws (pre ++ Input.parseFail f :: rest)).fault =
        some (Fault.parseError f) := by
  intro pre
  induction pre with
  | nil => intro _; rfl
  | cons i is ih =>
    intro h
    cases i with
    | openFail a b => exact ih h
    | parseFail a => rw [runMain] at h; simp at h
    | doc a root =>
      rcases hq : processElems useId ws (matchedElements root) with ⟨ls, flt⟩
      rw [runMain, hq] at h
      rw [List.cons_append, runMain, hq]
      cases flt with
      | some x => simp at h
      | none => exact ih h

/-- C3: a malformed input aborts the whole run: the parse fault is not
caught, the run's observable state is the same whatever inputs follow
the malformed one, and when the preceding inputs ran fault-free the run
ends in exactly that parse fault. -/
theorem claim_C3 :
    ∀ (useId ws : Bool) (pre : List Input) (f : String) (rest : List Input),
      runMain useId ws (pre ++ Input.parseFail f :: rest) =
        runMain useId ws (pre ++ [Input.parseFail f]) ∧
      ((runMain useId ws pre).fault = none →
        (runMain useId ws (pre ++ Input.parseFail f :: rest)).fault =
          some (Fault.parseError f)) :=
  fun u w pre f rest =>
    ⟨runMain_append_pf u w f rest pre, runMain_pf_fault u w f rest pre⟩

/-- Witness for C3: an open failure, then a malformed file, then a
well-formed file that is never reached. -/
theorem claim_C3_wit :
    (runMain false false ([Input.openFail "a" "b"] ++
        Input.parseFail "m" :: [Input.doc "g" noIdText])).fault =
      some (Fault.parseError "m") :=
  (claim_C3 false false [Input.openFail "a" "b"] "m"
    [Input.doc "g" noIdText]).2 (by decide)

/-- Matched text element of the Hello World scenario. -/
def helloText : Element :=
  Element.mk svgTextTag [("id", "t1")] (some "Hello  World") []

/-- Root of the Hello World scenario document. -/
def helloDoc : Element :=
  Element.mk "\x7bhttp://www.w3.org/2000/svg\x7dsvg" [] none [helloText]

/-- Expected line of the Hello World scenario without ids: the literal
`Hello World` between single quotes. -/
def helloLine : String :=
  String.mk ([squote] ++ "Hello World".data ++ [squote])

/-- Expected line of the Hello World scenario with ids: the same quoted
literal behind `t1: `. -/
def helloLineId : String :=
  String.mk ("t1: ".data ++ [squote] ++ "Hello World".data ++ [squote])

/-- The chosen `repr` quote is one of the two quote characters. -/
theorem reprQuote_cases (l : List Char) :
    reprQuote l = squote ∨ reprQuote l = dquote := by
  unfold reprQuote
  split_ifs <;> simp

/-- Hexadecimal digits are plain ASCII, never control characters. -/
theorem hexDigitChar_ok (k : Fin 16) :
    48 ≤ (hexDigitChar k.val).toNat ∧ (hexDigitChar k.val).toNat ≤ 102 := by
  revert k
  decide

/-- Every character of a fixed-width hexadecimal rendering is a plain
ASCII digit or letter. -/
theorem hexChars_ok :
    ∀ (w n : Nat), ∀ d ∈ hexChars w n, 48 ≤ d.toNat ∧ d.toNat ≤ 102 := by
  intro w
  induction w with
  | zero =>
    intro n d hd
    simp [hexChars] at hd
  | succ w ih =>
    intro n d hd
    rw [hexChars] at hd
    rcases List.mem_append.mp hd with h | h
    · exact ih (n / 16) d h
    · rw [List.mem_singleton] at h
      subst h
      exact hexDigitChar_ok ⟨n % 16, Nat.mod_lt _ (by omega)⟩

/-- A printable character is neither a C0 nor a C1 control. -/
theorem printable_not_ctl (c : Char) (h : pyPrintable c = true) :
    32 ≤ c.toNat ∧ ¬(127 ≤ c.toNat ∧ c.toNat ≤ 159) := by
  unfold pyPrintable at h
  rw [Bool.not_eq_eq_eq_not, Bool.not_true, List.any_eq_false] at h
  have h1 := h (0x00, 0x1F) (by simp [nonPrintableRanges])
  have h2 := h (0x7F, 0x9F) (by simp [nonPrintableRanges])
  simp at h1 h2
  omega

/-- The escape of any character contains no control character. -/
theorem escapeChar_no_ctl (q c : Char) (hq : q = squote ∨ q = dquote) :
    ∀ d ∈ escapeChar q c, controlChar d = false := by
  intro d hd
  unfold escapeChar at hd
  split_ifs at hd with h1 h2 h3 h4 h5 h6 h7 h8 h9
  · simp at hd; subst hd; decide
  · simp at hd
    rcases hd with hd | hd
    · subst hd; decide
    · subst hd
      rcases hq with hq | hq <;> (subst hq; decide)
  · simp at hd; rcases hd with hd | hd <;> (subst hd; decide)
  · simp at hd; rcases hd with hd | hd <;> (subst hd; decide)
  · simp at hd; rcases hd with hd | hd <;> (subst hd; decide)
  · simp only [List.mem_cons] at hd
    rcases hd with hd | hd | hd
    · subst hd; decide
    · subst hd; decide
    · have := hexChars_ok 2 c.toNat d hd
      simp [controlChar]
      omega
  · simp at hd
    have := printable_not_ctl c h7
    rw [hd]
    simp [controlChar]
    omega
  · simp only [List.mem_cons] at hd
    rcases hd with hd | hd | hd
    · subst hd; decide
    · subst hd; decide
    · have := hexChars_ok 2 c.toNat d hd
      simp [controlChar]
      omega
  · simp only [List.mem_cons] at hd
    rcases hd with hd | hd | hd
    · subst hd; decide
    · subst hd; decide
    · have := hexChars_ok 4 c.toNat d hd
      simp [controlChar]
      omega
  · simp only [List.mem_cons] at hd
    rcases hd with hd | hd | hd
    · subst hd; decide
    · subst hd; decide
    · have := hexChars_ok 8 c.toNat d hd
      simp [controlChar]
      omega

/-- A rendered literal contains no control character: embedded
newlines, tabs and other controls always appear escaped, keeping the
output a single unambiguous line. -/
theorem pyRepr_no_ctl (s : String) :
    ∀ d ∈ (pyRepr s).data, controlChar d = false := by
  intro d hd
  have hq := reprQuote_cases s.data
  have hqc : controlChar (reprQuote s.data) = false := by
    rcases hq with h | h <;> (rw [h]; decide)
  rcases List.mem_cons.mp hd with h | h
  · rw [h]; exact hqc
  · rcases List.mem_append.mp h with h | h
    · obtain ⟨a, _, hda⟩ := List.mem_flatMap.mp h
      exact escapeChar_no_ctl (reprQuote s.data) a hq d hda
    · rw [List.mem_singleton.mp h]; exact hqc

/-- C6: every matched element renders as one line, `id`, colon-space
and quoted escaped payload when ids were requested, the quoted escaped
payload alone otherwise; the rendered literal never contains a raw
control character (controls and quotes appear escaped); on the Hello
World document with collapse the line is the quoted `Hello World`, and
with ids also requested it is the same line behind `t1: `. -/
theorem claim_C6 :
    (∀ (ws : Bool) (e : Element) (v : String),
      e.attrib.lookup idAttr = some v →
      processElement true ws e =
        Except.ok (v ++ colonSep ++ pyRepr (applyWs ws (get_childrens_text e)))) ∧
    (∀ (ws : Bool) (e : Element),
      processElement false ws e =
        Except.ok (pyRepr (applyWs ws (get_childrens_text e)))) ∧
    (∀ s : String, ∀ d ∈ (pyRepr s).data, controlChar d = false) ∧
    (runMain false true [Input.doc "f" helloDoc]).out = [helloLine] ∧
    (runMain true true [Input.doc "f" helloDoc]).out = [helloLineId] := by
  refine ⟨?_, fun ws e => rfl, fun s => pyRepr_no_ctl s, by decide, by decide⟩
  intro ws e v h
  simp [processElement, h]

/-- Witness for C6: the Hello World text element, and the escaped
newline character of a one-newline payload. -/
theorem claim_C6_wit :
    (processElement true true helloText =
      Except.ok ("t1" ++ colonSep ++
        pyRepr (applyWs true (get_childrens_text helloText)))) ∧
    controlChar (Char.ofNat 92) = false :=
  ⟨claim_C6.1 true helloText "t1" rfl,
   claim_C6.2.2.1 (String.mk ['\n']) (Char.ofNat 92) (by decide)⟩

/-- Every element heads its own traversal. -/
theorem mem_iterAll_self (e : Element) : e ∈ Element.iterAll e := by
  cases e with
  | mk t a x cs => exact List.mem_cons_self _ _

mutual

/-- Pre-order contiguity: the traversal of a subtree sits inside the
traversal of any tree containing it as one contiguous run. -/
theorem iterAll_infix_of_mem (e : Element) :
    ∀ d : Element, d ∈ Element.iterAll e →
      List.IsInfix (Element.iterAll d) (Element.iterAll e) := by
  cases e with
  | mk t a x cs =>
    intro d hd
    rw [show Element.iterAll (Element.mk t a x cs) =
        Element.mk t a x cs :: iterAllList cs from rfl] at hd ⊢
    rcases List.mem_cons.mp hd with h | h
    · subst h
      exact List.infix_rfl
    · exact List.infix_cons (iterAllList_infix_of_mem cs d h)

/-- Forest version of `iterAll_infix_of_mem`. -/
theorem iterAllList_infix_of_mem (l : List Element) :
    ∀ d : Element, d ∈ iterAllList l →
      List.IsInfix (Element.iterAll d) (iterAllList l) := by
  cases l with
  | nil =>
    intro d hd
    simp [iterAllList] at hd
  | cons c cs =>
    intro d hd
    rw [show iterAllList (c :: cs) =
        Element.iterAll c ++ iterAllList cs from rfl] at hd ⊢
    rcases List.mem_append.mp hd with h | h
    · exact (iterAll_infix_of_mem c d h).trans
        ⟨[], iterAllList cs, by simp⟩
    · exact (iterAllList_infix_of_mem cs d h).trans
        ⟨Element.iterAll c, [], by simp⟩

end

/-- Inner text element of the nesting scenario. -/
def nestedInner : Element := Element.mk svgTextTag [] (some "in") []

/-- Outer text element of the nesting scenario, holding the inner one. -/
def nestedOuter : Element :=
  Element.mk svgTextTag [] (some "out ") [nestedInner]

/-- Expected first line of the nesting scenario: quoted `out in`. -/
def nestedOuterLine : String :=
  String.mk ([squote] ++ "out in".data ++ [squote])

/-- Expected second line of the nesting scenario: quoted `in`. -/
def nestedInnerLine : String :=
  String.mk ([squote] ++ "in".data ++ [squote])

/-- C10: when one matched text element descends from another, both are
matched (each yielding its own line), and the inner element's fragment
run reappears inside the outer element's fragment run; on the concrete
nested document the run prints the aggregated outer line and then the
inner line, emitting the inner text twice. -/
theorem claim_C10 :
    (∀ e d : Element, d ∈ Element.iterAll e →
      e.tag = svgTextTag → d.tag = svgTextTag →
      e ∈ matchedElements e ∧ d ∈ matchedElements e ∧
      List.IsInfix (textFragments d) (textFragments e)) ∧
    (runMain false false [Input.doc "f" nestedOuter]).out =
      [nestedOuterLine, nestedInnerLine] := by
  constructor
  · intro e d hd he hdt
    refine ⟨?_, ?_, ?_⟩
    · rw [matchedElements, List.mem_filter]
      exact ⟨mem_iterAll_self e, by simp [he]⟩
    · rw [matchedElements, List.mem_filter]
      exact ⟨hd, by simp [hdt]⟩
    · exact List.IsInfix.filterMap truthyText (iterAll_infix_of_mem e d hd)
  · decide

/-- Witness for C10 at the concrete nested pair. -/
theorem claim_C10_wit :
    nestedOuter ∈ matchedElements nestedOuter ∧
    nestedInner ∈ matchedElements nestedOuter ∧
    List.IsInfix (textFragments nestedInner) (textFragments nestedOuter) :=
  claim_C10.1 nestedOuter nestedInner
    (by rw [show Element.iterAll nestedOuter =
          [nestedOuter, nestedInner] from rfl]
        exact List.mem_cons_of_mem _ (List.mem_cons_self _ _))
    rfl rfl
